import Mathlib

/-!
Verification of the reference-resolution pipeline and session lifecycle of a
browser-automation extension.  The definitions below are shallow embeddings of
the TypeScript sources: the ref resolver (buildRefs, formatAriaTree, RefStore
in refs.ts), the CDP session wrapper and session manager (cdp.ts) and the
command layer (commands.ts).  JavaScript number truthiness (0 is falsy) and
string truthiness (the empty string is falsy) are modelled explicitly where
the source relies on them.
-/

/-- Bounding rectangle as extracted from the DOM snapshot (types.ts,
BoundingBox).  Coordinates are modelled as integers; only their ordering
relative to zero matters to the code under verification. -/
structure BoundingBox where
  x : Int
  y : Int
  width : Int
  height : Int
deriving DecidableEq, Repr

/-- Accessibility node as consumed by the resolver (refs.ts, interface
AXNode).  Optional fields are Options; the role, name and value wrappers
are flattened to their inner string. -/
structure AXNode where
  nodeId : String
  parentId : Option String := none
  backendDOMNodeId : Option Nat := none
  role : Option String := none
  name : Option String := none
  value : Option String := none
  ignored : Bool := false
  childIds : Option (List String) := none
deriving DecidableEq, Repr

/-- Resolved element handle (types.ts, interface Ref), with exactly the
fields the resolver populates. -/
structure Ref where
  id : String
  backendNodeId : Nat
  axNodeId : String
  role : String
  name : String
  value : Option String
  boundingBox : Option BoundingBox
deriving DecidableEq, Repr

/-- One document of the DOM snapshot (refs.ts, interface DOMSnapshotResult):
parallel arrays correlating backend node ids, layout node indices and
bounding rectangles. -/
structure SnapshotDocument where
  backendNodeIds : List Nat
  layoutNodeIndex : List Nat
  layoutBounds : List (List Int)
deriving DecidableEq, Repr

/-- The layout snapshot: a list of documents. -/
structure DOMSnapshotResult where
  documents : List SnapshotDocument
deriving DecidableEq, Repr

/-- Array.prototype.indexOf, returning the first index of x or none. -/
def jsIndexOf : List Nat → Nat → Option Nat
  | [], _ => none
  | y :: ys, x => if y = x then some 0 else (jsIndexOf ys x).map (· + 1)

/-- extractBoundingBox (refs.ts): scan the snapshot documents for a backend
node id match, then the layout entry for that node index; a bounds row
shorter than 4 entries falls through to the next document. -/
def extractBoundingBox (backendNodeId : Nat) : List SnapshotDocument → Option BoundingBox
  | [] => none
  | doc :: rest =>
    match jsIndexOf doc.backendNodeIds backendNodeId with
    | none => extractBoundingBox backendNodeId rest
    | some nodeIndex =>
      match jsIndexOf doc.layoutNodeIndex nodeIndex with
      | none => extractBoundingBox backendNodeId rest
      | some layoutIdx =>
        match doc.layoutBounds.get? layoutIdx with
        | none => extractBoundingBox backendNodeId rest
        | some bounds =>
          if 4 ≤ bounds.length then
            some ⟨bounds.getD 0 0, bounds.getD 1 0, bounds.getD 2 0, bounds.getD 3 0⟩
          else extractBoundingBox backendNodeId rest

/-- isVisible (refs.ts): a box is visible when present with non-zero
width and height. -/
def isVisible : Option BoundingBox → Bool
  | none => false
  | some box => decide (0 < box.width) && decide (0 < box.height)

/-- ACTIONABLE_ROLES (types.ts): the fixed actionable-role allow list. -/
def ACTIONABLE_ROLES : List String :=
  ["button", "link", "textbox", "checkbox", "radio", "combobox", "menuitem",
   "menuitemcheckbox", "menuitemradio", "tab", "switch", "slider",
   "spinbutton", "searchbox", "option", "listitem"]

/-- String.prototype.toLowerCase, modelled character-wise (the roles the
code compares are ASCII). -/
def jsToLower (s : String) : String := ⟨s.data.map Char.toLower⟩

/-- JavaScript or-default on an optional string: an absent or empty string
falls back to the default (the || operator on string operands). -/
def jsStrOr (s : Option String) (dflt : String) : String :=
  match s with
  | some v => if v = "" then dflt else v
  | none => dflt

/-- generateRefId (refs.ts): short sequential ref id. -/
def generateRefId (index : Nat) : String := "e" ++ toString index

/-- The filter applied to each accessibility node by buildRefs (refs.ts):
not ignored, actionable role (lower-cased), truthy backend DOM node id,
and a visible bounding box. -/
def survives (docs : List SnapshotDocument) (node : AXNode) : Bool :=
  !node.ignored &&
  ACTIONABLE_ROLES.contains (jsToLower (node.role.getD "")) &&
  (node.backendDOMNodeId.getD 0 != 0) &&
  isVisible (extractBoundingBox (node.backendDOMNodeId.getD 0) docs)

/-- The Ref record buildRefs constructs for the index-th surviving node. -/
def mkRef (docs : List SnapshotDocument) (index : Nat) (node : AXNode) : Ref :=
  { id := generateRefId index
    backendNodeId := node.backendDOMNodeId.getD 0
    axNodeId := node.nodeId
    role := jsStrOr node.role "unknown"
    name := node.name.getD ""
    value := node.value
    boundingBox := extractBoundingBox (node.backendDOMNodeId.getD 0) docs }

/-- The join-and-filter loop of buildRefs (refs.ts): walk the accessibility
nodes in order, skip ignored nodes, non-actionable roles, nodes without a
truthy backend DOM node id and nodes without a visible box; each survivor
gets the next sequential ref id. -/
def buildRefsGo (docs : List SnapshotDocument) : List AXNode → Nat → List Ref
  | [], _ => []
  | node :: rest, index =>
    if node.ignored then buildRefsGo docs rest index
    else if !(ACTIONABLE_ROLES.contains (jsToLower (node.role.getD ""))) then
      buildRefsGo docs rest index
    else if node.backendDOMNodeId.getD 0 = 0 then buildRefsGo docs rest index
    else
      let boundingBox := extractBoundingBox (node.backendDOMNodeId.getD 0) docs
      if !(isVisible boundingBox) then buildRefsGo docs rest index
      else
        { id := generateRefId index
          backendNodeId := node.backendDOMNodeId.getD 0
          axNodeId := node.nodeId
          role := jsStrOr node.role "unknown"
          name := node.name.getD ""
          value := node.value
          boundingBox := boundingBox } :: buildRefsGo docs rest (index + 1)

/-- The pure core of buildRefs (refs.ts): given the fetched accessibility
tree and layout snapshot, produce the ref list. -/
def buildRefsList (nodes : List AXNode) (snapshot : DOMSnapshotResult) : List Ref :=
  buildRefsGo snapshot.documents nodes 0

theorem buildRefsGo_eq (docs : List SnapshotDocument) (nodes : List AXNode) (k : Nat) :
    buildRefsGo docs nodes k =
      (List.enumFrom k (nodes.filter (survives docs))).map (fun p => mkRef docs p.1 p.2) := by
  induction nodes generalizing k with
  | nil => simp [buildRefsGo]
  | cons node rest ih =>
    by_cases hig : node.ignored
    · have hs : survives docs node = false := by
        simp [survives, hig]
      simp [buildRefsGo, hig, hs, ih]
    · by_cases hrole : jsToLower (node.role.getD "") ∈ ACTIONABLE_ROLES
      · by_cases hbid : node.backendDOMNodeId.getD 0 = 0
        · have hs : survives docs node = false := by
            simp [survives, hbid]
          simp [buildRefsGo, hig, hrole, hbid, hs, ih]
        · by_cases hvis : isVisible (extractBoundingBox (node.backendDOMNodeId.getD 0) docs)
          · have hs : survives docs node = true := by
              simp [survives, hig, hrole, hbid, hvis]
            simp [buildRefsGo, hig, hrole, hbid, hvis, hs, List.filter_cons, ih, mkRef]
          · have hs : survives docs node = false := by
              simp [survives, hvis]
            simp [buildRefsGo, hig, hrole, hbid, hvis, hs, ih]
      · have hs : survives docs node = false := by
          simp [survives, hrole]
        simp [buildRefsGo, hig, hrole, hs, ih]

theorem buildRefsList_eq (nodes : List AXNode) (snapshot : DOMSnapshotResult) :
    buildRefsList nodes snapshot =
      (nodes.filter (survives snapshot.documents)).enum.map
        (fun p => mkRef snapshot.documents p.1 p.2) := by
  simp [buildRefsList, buildRefsGo_eq, List.enum]

/-- C1: the resolution pass assigns ref ids sequentially as e0, e1, ... in the
accessibility tree's native enumeration order of the nodes that survive
filtering; being a pure function of the accessibility tree and layout
snapshot, two passes over the same inputs produce identical ids in identical
order. -/
theorem resolution_ids_sequential (nodes : List AXNode) (snapshot : DOMSnapshotResult) :
    buildRefsList nodes snapshot =
      (nodes.filter (survives snapshot.documents)).enum.map
        (fun p => mkRef snapshot.documents p.1 p.2) ∧
    (buildRefsList nodes snapshot).map Ref.id =
      (List.range (buildRefsList nodes snapshot).length).map (fun i => "e" ++ toString i) := by
  refine ⟨buildRefsList_eq nodes snapshot, ?_⟩
  rw [buildRefsList_eq]
  rw [List.map_map, List.length_map, List.enum_length]
  have h1 : ((nodes.filter (survives snapshot.documents)).enum.map
      (Ref.id ∘ fun p => mkRef snapshot.documents p.1 p.2)) =
      ((nodes.filter (survives snapshot.documents)).enum.map
        ((fun i => "e" ++ toString i) ∘ Prod.fst)) := by
    simp [mkRef, generateRefId]
  rw [h1, ← List.map_map, List.enum_map_fst]

theorem isVisible_eq_true (o : Option BoundingBox) (h : isVisible o = true) :
    ∃ b, o = some b ∧ 0 < b.width ∧ 0 < b.height := by
  cases o with
  | none => simp [isVisible] at h
  | some b =>
    simp only [isVisible, Bool.and_eq_true, decide_eq_true_eq] at h
    exact ⟨b, rfl, h.1, h.2⟩

theorem buildRefsGo_boxes (docs : List SnapshotDocument) (nodes : List AXNode) (k : Nat)
    (r : Ref) (hr : r ∈ buildRefsGo docs nodes k) :
    ∃ b, r.boundingBox = some b ∧ 0 < b.width ∧ 0 < b.height := by
  induction nodes generalizing k with
  | nil => simp [buildRefsGo] at hr
  | cons node rest ih =>
    rw [buildRefsGo_eq] at hr
    by_cases hs : survives docs node
    · rw [List.filter_cons_of_pos hs, List.enumFrom_cons, List.map_cons] at hr
      rcases List.mem_cons.1 hr with hhead | htail
      · subst hhead
        have hvis : isVisible (extractBoundingBox (node.backendDOMNodeId.getD 0) docs) = true := by
          have := hs
          simp only [survives, Bool.and_eq_true] at this
          exact this.2
        simpa [mkRef] using isVisible_eq_true _ hvis
      · exact ih (k + 1) (by rw [buildRefsGo_eq]; exact htail)
    · rw [List.filter_cons_of_neg (by simpa using hs)] at hr
      exact ih k (by rw [buildRefsGo_eq]; exact hr)

/-- C3: every Ref produced by the resolution pass has a non-null bounding box
with positive width and height; nodes whose box is missing from the layout
snapshot or degenerate are excluded by the visibility gate. -/
theorem refs_have_visible_boxes (nodes : List AXNode) (snapshot : DOMSnapshotResult)
    (r : Ref) (hr : r ∈ buildRefsList nodes snapshot) :
    ∃ b, r.boundingBox = some b ∧ 0 < b.width ∧ 0 < b.height :=
  buildRefsGo_boxes snapshot.documents nodes 0 r hr

/-- Messages crossing the chrome.debugger transport boundary: an attach
request, a detach request, or a protocol command (cdp.ts).  The method name
of a command is recorded. -/
inductive TransportMsg where
  | attachMsg
  | detachMsg
  | commandMsg (method : String)
deriving DecidableEq, Repr

/-- Errors of the session layer: sending while not attached (the throw in
CDPSession.send) and a refused attach (chrome.debugger.attach rejecting). -/
inductive CDPError where
  | notAttached
  | connectionError
deriving DecidableEq, Repr

/-- State of one CDPSession (cdp.ts): the private attached flag plus the
trace of messages this session has handed to the transport. -/
structure CDPState where
  tabId : Nat
  attached : Bool
  log : List TransportMsg
deriving DecidableEq, Repr

/-- CDPSession.send (cdp.ts): throws when the session is not attached,
before anything reaches the transport; otherwise forwards the command. -/
def CDPState.send (s : CDPState) (method : String) : Except CDPError Unit × CDPState :=
  if s.attached then (Except.ok (), { s with log := s.log ++ [TransportMsg.commandMsg method] })
  else (Except.error CDPError.notAttached, s)

/-- CDPSession.attach (cdp.ts): no-op when already attached; otherwise one
attach request goes to the transport, which may refuse (modelled by the
transportOk oracle), and on success the attached flag is set. -/
def CDPState.attach (transportOk : Bool) (s : CDPState) : Except CDPError Unit × CDPState :=
  if s.attached then (Except.ok (), s)
  else if transportOk then
    (Except.ok (), { s with attached := true, log := s.log ++ [TransportMsg.attachMsg] })
  else (Except.error CDPError.connectionError, { s with log := s.log ++ [TransportMsg.attachMsg] })

/-- CDPSession.detach (cdp.ts): no-op when not attached; otherwise a
best-effort detach request (errors swallowed) and the flag is cleared. -/
def CDPState.detach (s : CDPState) : CDPState :=
  if s.attached then { s with attached := false, log := s.log ++ [TransportMsg.detachMsg] }
  else s

/-- The four domain-enable commands issued by CDPSession.enableDomains
(cdp.ts). -/
def enableMethods : List String :=
  ["Page.enable", "DOM.enable", "Accessibility.enable", "Runtime.enable"]

/-- Sequence a list of sends, stopping at the first failure (the
Promise.all of CDPSession.enableDomains; the initiation order of the sends
is the array order). -/
def sendAll (s : CDPState) : List String → Except CDPError Unit × CDPState
  | [] => (Except.ok (), s)
  | m :: rest =>
    match s.send m with
    | (Except.ok _, s1) => sendAll s1 rest
    | (Except.error e, s1) => (Except.error e, s1)

/-- CDPSession.enableDomains (cdp.ts): issues the four enable commands;
note there is no guard against re-enabling. -/
def CDPState.enableDomains (s : CDPState) : Except CDPError Unit × CDPState :=
  sendAll s enableMethods

theorem sendAll_attached (s : CDPState) (ms : List String) (h : s.attached = true) :
    sendAll s ms =
      (Except.ok (), { s with log := s.log ++ ms.map TransportMsg.commandMsg }) := by
  induction ms generalizing s with
  | nil => simp [sendAll]
  | cons m rest ih =>
    simp [sendAll, CDPState.send, h, ih, List.append_assoc]

/-- Counterexample to C6 as stated: on an attached session with an empty
transport trace, a first enableDomains call sends four commands and a
second call sends four more, so the second call does issue further remote
commands. -/
theorem enableDomains_second_call_sends :
    ((CDPState.enableDomains (CDPState.enableDomains ⟨7, true, []⟩).2).2.log ≠
      (CDPState.enableDomains ⟨7, true, []⟩).2.log) ∧
    (CDPState.enableDomains (CDPState.enableDomains ⟨7, true, []⟩).2).2.log.length = 8 := by
  constructor
  · simp [CDPState.enableDomains, sendAll, CDPState.send, enableMethods]
  · simp [CDPState.enableDomains, sendAll, CDPState.send, enableMethods]

/-- C6 amended: enableDomains on an attached session never errors and
leaves the attached flag set, but each call (including a repeated one)
issues the same four enable commands again over the transport, so a second
call is observationally a re-send, not a no-op. -/
theorem enableDomains_twice (s : CDPState) (h : s.attached = true) :
    (s.enableDomains.1 = Except.ok () ∧
      s.enableDomains.2.attached = true ∧
      s.enableDomains.2.log = s.log ++ enableMethods.map TransportMsg.commandMsg) ∧
    ((s.enableDomains.2.enableDomains).1 = Except.ok () ∧
      (s.enableDomains.2.enableDomains).2.attached = true ∧
      (s.enableDomains.2.enableDomains).2.log =
        s.log ++ enableMethods.map TransportMsg.commandMsg
          ++ enableMethods.map TransportMsg.commandMsg) := by
  have h1 := sendAll_attached s enableMethods h
  refine ⟨⟨?_, ?_, ?_⟩, ?_⟩
  · simp [CDPState.enableDomains, h1]
  · simp [CDPState.enableDomains, h1, h]
  · simp [CDPState.enableDomains, h1]
  · have h2 := sendAll_attached { s with log := s.log ++ enableMethods.map TransportMsg.commandMsg }
      enableMethods h
    simp only [h] at h1 h2
    constructor
    · simp [CDPState.enableDomains, h1, h2, h]
    constructor
    · simp [CDPState.enableDomains, h1, h2, h]
    · simp [CDPState.enableDomains, h1, h2, h, List.append_assoc]

/-- Witness for the amended C6 at a concrete attached session. -/
theorem enableDomains_twice_witness :
    (CDPState.enableDomains ⟨7, true, []⟩).1 = Except.ok () ∧
    ((CDPState.enableDomains ⟨7, true, []⟩).2.enableDomains).2.log =
      enableMethods.map TransportMsg.commandMsg ++ enableMethods.map TransportMsg.commandMsg := by
  have h := enableDomains_twice ⟨7, true, []⟩ rfl
  exact ⟨h.1.1, by simpa using h.2.2.2⟩

/-- C7: send on a session that is not attached fails with NotAttachedError
and the transport receives no message (the state, including the transport
trace, is unchanged); no implicit attach is performed. -/
theorem send_not_attached (s : CDPState) (method : String) (h : s.attached = false) :
    s.send method = (Except.error CDPError.notAttached, s) := by
  simp [CDPState.send, h]

/-- Witness for C7 on a concrete never-attached session. -/
theorem send_not_attached_witness :
    CDPState.send ⟨3, false, []⟩ "Page.navigate" =
      (Except.error CDPError.notAttached, ⟨3, false, []⟩) :=
  send_not_attached ⟨3, false, []⟩ "Page.navigate" rfl

/-- C8: attach is idempotent: on an already-attached session a second call
returns successfully without issuing any attach request to the transport
and leaves the state (in particular isAttached) unchanged, whatever the
transport would have answered. -/
theorem attach_idempotent (transportOk : Bool) (s : CDPState) (h : s.attached = true) :
    CDPState.attach transportOk s = (Except.ok (), s) := by
  simp [CDPState.attach, h]

/-- Witness for C8 on a concrete attached session. -/
theorem attach_idempotent_witness :
    CDPState.attach false ⟨5, true, [TransportMsg.attachMsg]⟩ =
      (Except.ok (), ⟨5, true, [TransportMsg.attachMsg]⟩) :=
  attach_idempotent false ⟨5, true, [TransportMsg.attachMsg]⟩ rfl

/-- Lookup in a JavaScript Map modelled as an insertion list: the most
recently set binding for the key wins. -/
def mapLookup {α : Type} (m : List (Nat × α)) (k : Nat) : Option α :=
  (m.reverse.find? (fun p => p.1 == k)).map Prod.snd

/-- Map.delete: drop every binding of the key. -/
def mapErase {α : Type} (m : List (Nat × α)) (k : Nat) : List (Nat × α) :=
  m.filter (fun p => p.1 != k)

/-- Map.set: append a binding; with last-binding-wins lookup this is
observationally Map.set. -/
def mapSet {α : Type} (m : List (Nat × α)) (k : Nat) (v : α) : List (Nat × α) :=
  m ++ [(k, v)]

/-- RefStore.update (refs.ts): clear the table and re-insert every ref
keyed by its id, so the table is replaced wholesale. -/
def storeUpdate (refs : List Ref) : List (String × Ref) :=
  refs.map (fun r => (r.id, r))

/-- RefStore.get (refs.ts): last binding of the id wins, as in a JS Map. -/
def storeGet (store : List (String × Ref)) (id : String) : Option Ref :=
  (store.reverse.find? (fun p => p.1 == id)).map Prod.snd

/-- The module state relevant to target removal: the session manager's
sessions map (cdp.ts) and the command layer's per-tab ref stores
(commands.ts, refStores). -/
structure World where
  sessions : List (Nat × CDPState)
  refStores : List (Nat × List (String × Ref))
deriving DecidableEq, Repr

/-- SessionManager.remove (cdp.ts): when the target is known, detach its
session and delete it from the sessions map; unknown targets are a no-op.
The detach only mutates the session object being deleted, and nothing in
the program ever deletes an entry of the refStores map, so the ref stores
are untouched. -/
def removeTarget (w : World) (tabId : Nat) : World :=
  match mapLookup w.sessions tabId with
  | none => w
  | some _ => { w with sessions := mapErase w.sessions tabId }

/-- Resolving a ref id for a tab (commands.ts, getRefStore followed by
RefStore.get; a tab with no store behaves as an empty store). -/
def resolveInStores (stores : List (Nat × List (String × Ref))) (tabId : Nat)
    (refId : String) : Option Ref :=
  match mapLookup stores tabId with
  | none => none
  | some store => storeGet store refId

/-- Ref resolution against the world state. -/
def resolveRef (w : World) (tabId : Nat) (refId : String) : Option Ref :=
  resolveInStores w.refStores tabId refId

theorem mapLookup_mapErase {α : Type} (m : List (Nat × α)) (k : Nat) :
    mapLookup (mapErase m k) k = none := by
  have h : (mapErase m k).reverse.find? (fun p => p.1 == k) = none := by
    rw [List.find?_eq_none]
    intro x hx
    have hx2 : x ∈ mapErase m k := List.mem_reverse.1 hx
    have := List.of_mem_filter hx2
    simpa using this
  simp [mapLookup, h]

/-- A concrete resolved ref used in counterexamples. -/
def sampleRef : Ref :=
  { id := "e0", backendNodeId := 42, axNodeId := "ax1", role := "button",
    name := "Submit", value := none, boundingBox := some ⟨0, 0, 10, 10⟩ }

/-- A world with one attached session and one resolvable ref for tab 1. -/
def sampleWorld : World :=
  { sessions := [(1, ⟨1, true, []⟩)],
    refStores := [(1, [("e0", sampleRef)])] }

/-- Counterexample to C2 as stated: removing target 1 drops its session but
its Ref Table is not dropped with it, and the ref e0 of the removed target
still resolves to its old value afterwards. -/
theorem remove_keeps_ref_table :
    mapLookup (removeTarget sampleWorld 1).sessions 1 = none ∧
    resolveRef (removeTarget sampleWorld 1) 1 "e0" = some sampleRef := by
  constructor
  · rfl
  · rfl

/-- C2 amended: remove(targetId) detaches and drops the session (a no-op
when the target is unknown), but it does not drop the target's Ref Table:
the refStores map is left unchanged, so previously resolved refs of the
removed target keep resolving until a later snapshot replaces them. -/
theorem remove_drops_session_only (w : World) (tabId : Nat) :
    (mapLookup w.sessions tabId = none → removeTarget w tabId = w) ∧
    mapLookup (removeTarget w tabId).sessions tabId = none ∧
    (removeTarget w tabId).refStores = w.refStores ∧
    (∀ refId, resolveRef (removeTarget w tabId) tabId refId = resolveRef w tabId refId) := by
  refine ⟨?_, ?_, ?_, ?_⟩
  · intro h
    simp [removeTarget, h]
  · cases hl : mapLookup w.sessions tabId with
    | none => simp [removeTarget, hl]
    | some s => simp [removeTarget, hl, mapLookup_mapErase]
  · cases hl : mapLookup w.sessions tabId with
    | none => simp [removeTarget, hl]
    | some s => simp [removeTarget, hl]
  · intro refId
    cases hl : mapLookup w.sessions tabId with
    | none => simp [removeTarget, hl]
    | some s => simp [removeTarget, resolveRef, hl]

/-- Witness for the amended C2: the no-op case on an unknown target and the
session-dropping case on the sample world. -/
theorem remove_drops_session_only_witness :
    removeTarget ⟨[], []⟩ 9 = ⟨[], []⟩ ∧
    mapLookup (removeTarget sampleWorld 1).sessions 1 = none ∧
    (removeTarget sampleWorld 1).refStores = sampleWorld.refStores := by
  refine ⟨(remove_drops_session_only ⟨[], []⟩ 9).1 rfl, ?_, ?_⟩
  · exact (remove_drops_session_only sampleWorld 1).2.1
  · exact (remove_drops_session_only sampleWorld 1).2.2.1

/-- Uniform command result (types.ts, CommandResult): success flag and
optional error message; the data payload is not needed for the claims
about error handling. -/
structure CommandResult where
  success : Bool
  error : Option String := none
deriving DecidableEq, Repr

/-- Result of buildRefs (refs.ts, BuildRefsResult): the ref list and the
rendered tree text. -/
structure BuildRefsResult where
  refs : List Ref
  tree : String
deriving DecidableEq, Repr

/-- snapshot (commands.ts): run the resolution pass; on success replace the
tab's ref store with the new refs, on a thrown error return a failure
result without touching any store.  The outcome of the protocol calls and
join is passed in as an Except value. -/
def snapshotCmd (stores : List (Nat × List (String × Ref))) (tabId : Nat)
    (buildResult : Except String BuildRefsResult) :
    CommandResult × List (Nat × List (String × Ref)) :=
  match buildResult with
  | Except.error e => (⟨false, some e⟩, stores)
  | Except.ok r => (⟨true, none⟩, mapSet stores tabId (storeUpdate r.refs))

/-- C10: when the resolution pass raises, the snapshot command returns a
failure result and the ref stores are left untouched, so every ref id of
the previous successful pass still resolves to its prior value; the table
is replaced only when the pass succeeds. -/
theorem snapshot_error_preserves_table (stores : List (Nat × List (String × Ref)))
    (tabId : Nat) (e : String) (r : BuildRefsResult) :
    snapshotCmd stores tabId (Except.error e) = (⟨false, some e⟩, stores) ∧
    (∀ refId, resolveInStores (snapshotCmd stores tabId (Except.error e)).2 tabId refId =
      resolveInStores stores tabId refId) ∧
    (snapshotCmd stores tabId (Except.ok r)).2 = mapSet stores tabId (storeUpdate r.refs) := by
  exact ⟨rfl, fun _ => rfl, rfl⟩

/-- The poll loop of waitForLoad (commands.ts): while the elapsed time is
below the timeout, evaluate document.readyState; on "complete" return
success, otherwise sleep 100 ms and poll again; once the timeout is
exceeded return the timeout failure result.  The environment is modelled by
the i-th poll answer and the elapsed time before the i-th poll; the 100 ms
sleep guarantees the elapsed time grows by at least 100 between polls. -/
def waitLoop (timeout : Nat) (poll : Nat → String) (elapsed : Nat → Nat)
    (hstep : ∀ i, elapsed i + 100 ≤ elapsed (i + 1)) (i : Nat) : CommandResult :=
  if h : elapsed i < timeout then
    if poll i = "complete" then ⟨true, none⟩
    else waitLoop timeout poll elapsed hstep (i + 1)
  else ⟨false, some "Timeout waiting for page load"⟩
termination_by timeout - elapsed i
decreasing_by
  have := hstep i
  omega

/-- waitForLoad (commands.ts) from the first poll. -/
def waitForLoadModel (timeout : Nat) (poll : Nat → String) (elapsed : Nat → Nat)
    (hstep : ∀ i, elapsed i + 100 ≤ elapsed (i + 1)) : CommandResult :=
  waitLoop timeout poll elapsed hstep 0

theorem waitLoop_never_complete (timeout : Nat) (poll : Nat → String) (elapsed : Nat → Nat)
    (hstep : ∀ i, elapsed i + 100 ≤ elapsed (i + 1))
    (hnever : ∀ i, poll i ≠ "complete") (i : Nat) :
    waitLoop timeout poll elapsed hstep i = ⟨false, some "Timeout waiting for page load"⟩ := by
  by_cases h : elapsed i < timeout
  · rw [waitLoop]
    have hrec := waitLoop_never_complete timeout poll elapsed hstep hnever (i + 1)
    simp [h, hnever i, hrec]
  · rw [waitLoop]
    simp [h]
termination_by timeout - elapsed i
decreasing_by
  have := hstep i
  omega

/-- C9: a page-load wait during which document.readyState never evaluates
to "complete" terminates once the configured timeout is exceeded and
returns the timeout failure result (success false with an error message)
instead of raising; the poll loop cannot block forever because each
iteration advances the elapsed time by at least the 100 ms sleep. -/
theorem waitForLoad_timeout (timeout : Nat) (poll : Nat → String) (elapsed : Nat → Nat)
    (hstep : ∀ i, elapsed i + 100 ≤ elapsed (i + 1))
    (hnever : ∀ i, poll i ≠ "complete") :
    waitForLoadModel timeout poll elapsed hstep =
      ⟨false, some "Timeout waiting for page load"⟩ :=
  waitLoop_never_complete timeout poll elapsed hstep hnever 0

/-- A page that stays in readyState "loading" forever. -/
def constLoading : Nat → String := fun _ => "loading"

/-- A clock advancing exactly 100 ms per poll iteration. -/
def pollClock : Nat → Nat := fun i => i * 100

theorem pollClock_step : ∀ i, pollClock i + 100 ≤ pollClock (i + 1) := by
  intro i
  unfold pollClock
  omega

theorem constLoading_ne_complete : ∀ i, constLoading i ≠ "complete" := by
  intro i
  simp [constLoading]

/-- Witness for C9: a concrete run with a 250 ms timeout and a page that
stays in state "loading" forever. -/
theorem waitForLoad_timeout_witness :
    waitForLoadModel 250 constLoading pollClock pollClock_step =
      ⟨false, some "Timeout waiting for page load"⟩ :=
  waitForLoad_timeout 250 constLoading pollClock pollClock_step constLoading_ne_complete

/-- The node ids of the accessibility nodes, in order (the key set of the
nodeMap that buildTree constructs). -/
def idList (nodes : List AXNode) : List String := nodes.map AXNode.nodeId

/-- nodeMap.get (refs.ts, buildTree): the map is filled in node order, so
for a duplicated id the last node wins. -/
def lookupNode (nodes : List AXNode) (nodeId : String) : Option AXNode :=
  nodes.reverse.find? (fun n => n.nodeId == nodeId)

theorem lookupNode_props (nodes : List AXNode) (i : String) (n : AXNode)
    (h : lookupNode nodes i = some n) : n.nodeId = i ∧ n ∈ nodes := by
  unfold lookupNode at h
  have h1 := List.find?_some h
  have h2 := List.mem_of_find?_eq_some h
  exact ⟨by simpa using h1, List.mem_reverse.1 h2⟩

theorem lookupNode_key_mem (nodes : List AXNode) (i : String) (n : AXNode)
    (h : lookupNode nodes i = some n) : i ∈ idList nodes := by
  obtain ⟨h1, h2⟩ := lookupNode_props nodes i n h
  exact h1 ▸ List.mem_map_of_mem AXNode.nodeId h2

/-- childrenByParent (refs.ts, buildTree): nodes whose (truthy) parentId
equals the given id, in node order.  The map has an entry for a parent
exactly when this list is nonempty. -/
def childIdsFromParents (nodes : List AXNode) (parentId : String) : List String :=
  (nodes.filter (fun n =>
    match n.parentId with
    | some p => !(p == "") && p == parentId
    | none => false)).map AXNode.nodeId

/-- getChildIds (refs.ts, buildTree): prefer the parent-pointer index,
falling back to the node's own childIds list, then to the empty list. -/
def getChildIds (nodes : List AXNode) (nodeId : String) : List String :=
  let fromParents := childIdsFromParents nodes nodeId
  if fromParents.isEmpty then
    match lookupNode nodes nodeId with
    | some n => n.childIds.getD []
    | none => []
  else fromParents

/-- A node of the display tree (refs.ts, interface TreeNode). -/
inductive TreeNode where
  | mk (node : AXNode) (ref : Option Ref) (children : List TreeNode)
deriving Repr

def TreeNode.node : TreeNode → AXNode
  | .mk n _ _ => n

def TreeNode.refOf : TreeNode → Option Ref
  | .mk _ r _ => r

def TreeNode.children : TreeNode → List TreeNode
  | .mk _ _ c => c

/-- Number of node ids in the dedup of the id list that are not on the
current recursion path; the termination measure of the tree recursion. -/
def freeIds (nodes : List AXNode) (visiting : List String) : Nat :=
  ((idList nodes).dedup.filter (fun y => !(visiting.contains y))).length

theorem length_filter_lt_of_strict {α : Type} [DecidableEq α] (l : List α)
    (p q : α → Bool) (x : α) (hx : x ∈ l) (hpx : p x = false) (hqx : q x = true)
    (himp : ∀ y, p y = true → q y = true) :
    (l.filter p).length < (l.filter q).length := by
  have hsub : List.Sublist (l.filter p) (l.filter q) := List.monotone_filter_right l himp
  have hle : (l.filter p).length ≤ (l.filter q).length := hsub.length_le
  rcases Nat.lt_or_ge (l.filter p).length (l.filter q).length with h | h
  · exact h
  · exfalso
    have heq : l.filter p = l.filter q := hsub.eq_of_length (Nat.le_antisymm hle h)
    have hxq : x ∈ l.filter q := List.mem_filter.2 ⟨hx, hqx⟩
    rw [← heq] at hxq
    have := (List.mem_filter.1 hxq).2
    rw [hpx] at this
    exact Bool.false_ne_true this

theorem freeIds_lt (nodes : List AXNode) (visiting : List String) (x : String)
    (hx : x ∈ idList nodes) (hv : x ∉ visiting) :
    freeIds nodes (x :: visiting) < freeIds nodes visiting := by
  unfold freeIds
  refine length_filter_lt_of_strict (idList nodes).dedup _ _ x (List.mem_dedup.2 hx) ?_ ?_ ?_
  · simp
  · simpa using hv
  · intro y hy
    simp only [Bool.not_eq_true'] at hy ⊢
    rw [List.contains_cons] at hy
    exact (Bool.or_eq_false_iff.mp hy).2

mutual
/-- toTreeNode (refs.ts, buildTree): an ignored node or a node already on
the current recursion path yields no tree node; otherwise the children are
collected, and the node is kept when it has a ref, a kept child, or a
non-empty name. -/
def toTreeNode (nodes : List AXNode) (refsMap : List (String × Ref)) (axNode : AXNode)
    (visiting : List String) (hmem : axNode.nodeId ∈ idList nodes) : Option TreeNode :=
  if axNode.ignored then none
  else if hv : axNode.nodeId ∈ visiting then none
  else
    let children := collectChildren nodes refsMap
      (getChildIds nodes axNode.nodeId) (axNode.nodeId :: visiting)
    let ref := storeGet refsMap axNode.nodeId
    if ref.isSome then some (TreeNode.mk axNode ref children)
    else if !children.isEmpty then some (TreeNode.mk axNode ref children)
    else if !((axNode.name.getD "") == "") then some (TreeNode.mk axNode ref children)
    else none
termination_by (freeIds nodes visiting, 0)
decreasing_by
  apply Prod.Lex.left
  exact freeIds_lt nodes visiting axNode.nodeId hmem hv

/-- collectDescendants (refs.ts, buildTree): walk a child-id list; an
unknown id contributes nothing; an ignored child not on the path is made
transparent by splicing in its own collected descendants; a non-ignored
child contributes its tree node when it is kept. -/
def collectChildren (nodes : List AXNode) (refsMap : List (String × Ref))
    (childIds : List String) (visiting : List String) : List TreeNode :=
  match childIds with
  | [] => []
  | childId :: rest =>
    match hl : lookupNode nodes childId with
    | none => collectChildren nodes refsMap rest visiting
    | some child =>
      if child.ignored then
        if hv : childId ∈ visiting then collectChildren nodes refsMap rest visiting
        else
          collectChildren nodes refsMap (getChildIds nodes childId) (childId :: visiting) ++
            collectChildren nodes refsMap rest visiting
      else
        match toTreeNode nodes refsMap child visiting
          ((lookupNode_props nodes childId child hl).1 ▸ lookupNode_key_mem nodes childId child hl) with
        | some t => t :: collectChildren nodes refsMap rest visiting
        | none => collectChildren nodes refsMap rest visiting
termination_by (freeIds nodes visiting, childIds.length)
decreasing_by
all_goals simp only [List.length_cons]
all_goals first
  | exact Prod.Lex.right _ (by omega)
  | exact Prod.Lex.left _ _ (freeIds_lt _ _ _ (lookupNode_key_mem _ _ _ hl) hv)
end

theorem collectChildren_nil (nodes : List AXNode) (refsMap : List (String × Ref))
    (visiting : List String) :
    collectChildren nodes refsMap [] visiting = [] := by
  rw [collectChildren]

theorem collectChildren_cons_unknown (nodes : List AXNode) (refsMap : List (String × Ref))
    (childId : String) (rest visiting : List String)
    (h : lookupNode nodes childId = none) :
    collectChildren nodes refsMap (childId :: rest) visiting =
      collectChildren nodes refsMap rest visiting := by
  rw [collectChildren]
  split
  · rfl
  · rename_i child heq
    rw [h] at heq
    cases heq

theorem collectChildren_cons_ignored_visited (nodes : List AXNode)
    (refsMap : List (String × Ref)) (childId : String) (rest visiting : List String)
    (child : AXNode) (hl : lookupNode nodes childId = some child)
    (hig : child.ignored = true) (hv : childId ∈ visiting) :
    collectChildren nodes refsMap (childId :: rest) visiting =
      collectChildren nodes refsMap rest visiting := by
  rw [collectChildren]
  split
  · rfl
  · rename_i child2 heq
    rw [hl] at heq
    cases heq
    simp [hig, hv]

theorem collectChildren_cons_ignored_spliced (nodes : List AXNode)
    (refsMap : List (String × Ref)) (childId : String) (rest visiting : List String)
    (child : AXNode) (hl : lookupNode nodes childId = some child)
    (hig : child.ignored = true) (hv : childId ∉ visiting) :
    collectChildren nodes refsMap (childId :: rest) visiting =
      collectChildren nodes refsMap (getChildIds nodes childId) (childId :: visiting) ++
        collectChildren nodes refsMap rest visiting := by
  rw [collectChildren]
  split
  · rename_i heq
    rw [hl] at heq
    cases heq
  · rename_i child2 heq
    rw [hl] at heq
    cases heq
    simp [hig, hv]

theorem collectChildren_cons_kept (nodes : List AXNode)
    (refsMap : List (String × Ref)) (childId : String) (rest visiting : List String)
    (child : AXNode) (hl : lookupNode nodes childId = some child)
    (hig : child.ignored = false) (hm : child.nodeId ∈ idList nodes) (t : TreeNode)
    (ht : toTreeNode nodes refsMap child visiting hm = some t) :
    collectChildren nodes refsMap (childId :: rest) visiting =
      t :: collectChildren nodes refsMap rest visiting := by
  rw [collectChildren]
  split
  · rename_i heq
    rw [hl] at heq
    cases heq
  · rename_i child2 heq
    rw [hl] at heq
    cases heq
    simp only [hig]
    rw [show (toTreeNode nodes refsMap child visiting
      ((lookupNode_props nodes childId child hl).1 ▸ lookupNode_key_mem nodes childId child hl)) =
      toTreeNode nodes refsMap child visiting hm from rfl, ht]
    simp

theorem collectChildren_cons_dropped (nodes : List AXNode)
    (refsMap : List (String × Ref)) (childId : String) (rest visiting : List String)
    (child : AXNode) (hl : lookupNode nodes childId = some child)
    (hig : child.ignored = false) (hm : child.nodeId ∈ idList nodes)
    (ht : toTreeNode nodes refsMap child visiting hm = none) :
    collectChildren nodes refsMap (childId :: rest) visiting =
      collectChildren nodes refsMap rest visiting := by
  rw [collectChildren]
  split
  · rename_i heq
    rw [hl] at heq
  · rename_i child2 heq
    rw [hl] at heq
    cases heq
    simp only [hig]
    rw [show (toTreeNode nodes refsMap child visiting
      ((lookupNode_props nodes childId child hl).1 ▸ lookupNode_key_mem nodes childId child hl)) =
      toTreeNode nodes refsMap child visiting hm from rfl, ht]
    simp

theorem toTreeNode_ignored (nodes : List AXNode) (refsMap : List (String × Ref))
    (axNode : AXNode) (visiting : List String) (hmem : axNode.nodeId ∈ idList nodes)
    (hig : axNode.ignored = true) :
    toTreeNode nodes refsMap axNode visiting hmem = none := by
  rw [toTreeNode]
  simp [hig]

theorem toTreeNode_visited (nodes : List AXNode) (refsMap : List (String × Ref))
    (axNode : AXNode) (visiting : List String) (hmem : axNode.nodeId ∈ idList nodes)
    (hv : axNode.nodeId ∈ visiting) :
    toTreeNode nodes refsMap axNode visiting hmem = none := by
  rw [toTreeNode]
  by_cases hig : axNode.ignored <;> simp [hig, hv]

theorem toTreeNode_step (nodes : List AXNode) (refsMap : List (String × Ref))
    (axNode : AXNode) (visiting : List String) (hmem : axNode.nodeId ∈ idList nodes)
    (hig : axNode.ignored = false) (hv : axNode.nodeId ∉ visiting) :
    toTreeNode nodes refsMap axNode visiting hmem =
      (let children := collectChildren nodes refsMap
        (getChildIds nodes axNode.nodeId) (axNode.nodeId :: visiting)
       let ref := storeGet refsMap axNode.nodeId
       if ref.isSome then some (TreeNode.mk axNode ref children)
       else if !children.isEmpty then some (TreeNode.mk axNode ref children)
       else if !((axNode.name.getD "") == "") then some (TreeNode.mk axNode ref children)
       else none) := by
  rw [toTreeNode]
  simp [hig, hv]

/-- Root selection of buildTree (refs.ts): the node whose role is
rootwebarea (case-insensitive), else any node without a truthy parentId,
else the first node; none when the node list is empty. -/
def buildTreeRoot (nodes : List AXNode) : Option AXNode :=
  match nodes with
  | [] => none
  | n0 :: _ =>
    some (((nodes.find? (fun n => jsToLower (n.role.getD "") == "rootwebarea")).orElse
      (fun _ => nodes.find? (fun n => n.parentId.getD "" == ""))).getD n0)

theorem buildTreeRoot_mem (nodes : List AXNode) (r : AXNode)
    (h : buildTreeRoot nodes = some r) : r.nodeId ∈ idList nodes := by
  unfold buildTreeRoot at h
  cases nodes with
  | nil => cases h
  | cons n0 rest =>
    simp only [Option.some.injEq] at h
    subst h
    cases hf1 : (n0 :: rest).find? (fun n => jsToLower (n.role.getD "") == "rootwebarea") with
    | some a =>
      have ha : a ∈ n0 :: rest := List.mem_of_find?_eq_some hf1
      simp only [hf1, Option.some_orElse', Option.getD_some]
      exact List.mem_map_of_mem AXNode.nodeId ha
    | none =>
      cases hf2 : (n0 :: rest).find? (fun n => n.parentId.getD "" == "") with
      | some b =>
        have hb : b ∈ n0 :: rest := List.mem_of_find?_eq_some hf2
        simp only [hf1, hf2, Option.none_orElse', Option.getD_some]
        exact List.mem_map_of_mem AXNode.nodeId hb
      | none =>
        simp only [hf1, hf2, Option.none_orElse', Option.getD_none]
        exact List.mem_map_of_mem AXNode.nodeId (List.mem_cons_self n0 rest)

/-- buildTree (refs.ts): pick the root and descend; an empty node list
yields no tree. -/
def buildTree (nodes : List AXNode) (refsMap : List (String × Ref)) : Option TreeNode :=
  match hr : buildTreeRoot nodes with
  | none => none
  | some root => toTreeNode nodes refsMap root [] (buildTreeRoot_mem nodes root hr)

theorem buildTree_some (nodes : List AXNode) (refsMap : List (String × Ref))
    (root : AXNode) (hr : buildTreeRoot nodes = some root)
    (hm : root.nodeId ∈ idList nodes) :
    buildTree nodes refsMap = toTreeNode nodes refsMap root [] hm := by
  unfold buildTree
  split
  · rename_i heq
    rw [hr] at heq
    cases heq
  · rename_i root2 heq
    rw [hr] at heq
    cases heq
    rfl

/-- The refsByAxId map of formatAriaTree (refs.ts): refs with a truthy
axNodeId, keyed by it. -/
def refsByAxId (refs : List Ref) : List (String × Ref) :=
  (refs.filter (fun r => !(r.axNodeId == ""))).map (fun r => (r.axNodeId, r))

/-- SKIP_ROLES (refs.ts): structural-noise roles rendered as zero-width. -/
def SKIP_ROLES : List String := ["none", "generic", "genericcontainer"]

/-- Two-space indentation (refs.ts, renderTree). -/
def indentStr (depth : Nat) : String := String.join (List.replicate depth "  ")

mutual
/-- renderTree (refs.ts): print role, optional quoted name and optional
ref tag at the given depth; a node with a skip role and no ref prints no
line of its own and its children stay at the same depth; empty lines are
filtered before joining with newlines. -/
def renderTree (t : TreeNode) (depth : Nat) : String :=
  match t with
  | TreeNode.mk node ref children =>
    let indent := indentStr depth
    let role := jsStrOr node.role "unknown"
    let name := node.name.getD ""
    let refTag :=
      match ref with
      | some r => " [ref=" ++ r.id ++ "]"
      | none => ""
    let skip := SKIP_ROLES.contains (jsToLower role) && ref.isNone
    let selfLines : List String :=
      if skip then []
      else [indent ++ role ++ (if name == "" then "" else " \"" ++ name ++ "\"") ++ refTag]
    let childDepth := if skip then depth else depth + 1
    String.intercalate "\n" ((selfLines ++ renderChildren children childDepth).filter
      (fun s => !(s == "")))

/-- The loop over treeNode.children in renderTree (refs.ts). -/
def renderChildren (ts : List TreeNode) (depth : Nat) : List String :=
  match ts with
  | [] => []
  | c :: cs => renderTree c depth :: renderChildren cs depth
end

/-- formatAriaTree (refs.ts): build the display tree from the nodes and the
refs keyed by axNodeId; an empty or fully pruned tree renders as the
"Empty page" sentinel. -/
def formatAriaTree (nodes : List AXNode) (refs : List Ref) : String :=
  match buildTree nodes (refsByAxId refs) with
  | none => "Empty page"
  | some root => renderTree root 0

/-- buildRefs (refs.ts): the complete resolution pass over fetched
accessibility nodes and layout snapshot, producing refs and tree text. -/
def buildRefs (nodes : List AXNode) (snapshot : DOMSnapshotResult) : BuildRefsResult :=
  { refs := buildRefsList nodes snapshot
    tree := formatAriaTree nodes (buildRefsList nodes snapshot) }

/-- Invariant of every tree node produced by the recursion of buildTree:
the node is not ignored, its id is fresh with respect to the recursion
path below which it was created, and its children satisfy the same
invariant one level deeper. -/
inductive GoodTree : List String → TreeNode → Prop where
  | mk (node : AXNode) (ref : Option Ref) (children : List TreeNode) (visiting : List String)
      (hig : node.ignored = false)
      (hfresh : node.nodeId ∉ visiting)
      (hch : ∀ c ∈ children, GoodTree (node.nodeId :: visiting) c) :
      GoodTree visiting (TreeNode.mk node ref children)

theorem GoodTree.weaken (t : TreeNode) (v2 : List String) (h : GoodTree v2 t) :
    ∀ v, (∀ x ∈ v, x ∈ v2) → GoodTree v t := by
  induction h with
  | mk node ref children visiting hig hfresh hch ih =>
    intro v hsub
    refine GoodTree.mk node ref children v hig (fun hx => hfresh (hsub _ hx)) ?_
    intro c hc
    refine ih c hc (node.nodeId :: v) ?_
    intro x hx
    rcases List.mem_cons.1 hx with h1 | h2
    · exact h1 ▸ List.mem_cons_self _ _
    · exact List.mem_cons_of_mem _ (hsub _ h2)

theorem tree_invariant (nodes : List AXNode) (refsMap : List (String × Ref)) :
    ∀ N : Nat, ∀ visiting : List String, freeIds nodes visiting ≤ N →
      (∀ (axNode : AXNode) (hmem : axNode.nodeId ∈ idList nodes) (t : TreeNode),
        toTreeNode nodes refsMap axNode visiting hmem = some t → GoodTree visiting t) ∧
      (∀ (childIds : List String) (t : TreeNode),
        t ∈ collectChildren nodes refsMap childIds visiting → GoodTree visiting t) := by
  intro N
  induction N using Nat.strong_induction_on with
  | _ N ih =>
  intro visiting hN
  have hTo : ∀ (axNode : AXNode) (hmem : axNode.nodeId ∈ idList nodes) (t : TreeNode),
      toTreeNode nodes refsMap axNode visiting hmem = some t → GoodTree visiting t := by
    intro axNode hmem t ht
    by_cases hig : axNode.ignored
    · rw [toTreeNode_ignored nodes refsMap axNode visiting hmem hig] at ht
      cases ht
    · by_cases hv : axNode.nodeId ∈ visiting
      · rw [toTreeNode_visited nodes refsMap axNode visiting hmem hv] at ht
        cases ht
      · have hig2 : axNode.ignored = false := by simpa using hig
        have hlt : freeIds nodes (axNode.nodeId :: visiting) < freeIds nodes visiting :=
          freeIds_lt nodes visiting axNode.nodeId hmem hv
        have hltN : freeIds nodes (axNode.nodeId :: visiting) < N := lt_of_lt_of_le hlt hN
        have hgood : ∀ c ∈ collectChildren nodes refsMap
            (getChildIds nodes axNode.nodeId) (axNode.nodeId :: visiting),
            GoodTree (axNode.nodeId :: visiting) c := by
          intro c hc
          exact (ih _ hltN (axNode.nodeId :: visiting) le_rfl).2 _ c hc
        rw [toTreeNode_step nodes refsMap axNode visiting hmem hig2 hv] at ht
        simp only at ht
        split_ifs at ht <;> cases ht <;> exact GoodTree.mk _ _ _ _ hig2 hv hgood
  have hColl : ∀ (childIds : List String) (t : TreeNode),
      t ∈ collectChildren nodes refsMap childIds visiting → GoodTree visiting t := by
    intro childIds
    induction childIds with
    | nil =>
      intro t ht
      rw [collectChildren_nil] at ht
      cases ht
    | cons childId rest ihRest =>
      intro t ht
      cases hl : lookupNode nodes childId with
      | none =>
        rw [collectChildren_cons_unknown nodes refsMap childId rest visiting hl] at ht
        exact ihRest t ht
      | some child =>
        by_cases hig : child.ignored
        · by_cases hv : childId ∈ visiting
          · rw [collectChildren_cons_ignored_visited nodes refsMap childId rest visiting
              child hl hig hv] at ht
            exact ihRest t ht
          · rw [collectChildren_cons_ignored_spliced nodes refsMap childId rest visiting
              child hl hig hv] at ht
            rcases List.mem_append.1 ht with h1 | h2
            · have hlt : freeIds nodes (childId :: visiting) < freeIds nodes visiting :=
                freeIds_lt nodes visiting childId (lookupNode_key_mem nodes childId child hl) hv
              have hltN : freeIds nodes (childId :: visiting) < N := lt_of_lt_of_le hlt hN
              have hg := (ih _ hltN (childId :: visiting) le_rfl).2 _ t h1
              exact GoodTree.weaken t (childId :: visiting) hg visiting
                (fun x hx => List.mem_cons_of_mem _ hx)
            · exact ihRest t h2
        · have hig2 : child.ignored = false := by simpa using hig
          have hm : child.nodeId ∈ idList nodes := by
            rw [(lookupNode_props nodes childId child hl).1]
            exact lookupNode_key_mem nodes childId child hl
          cases htn : toTreeNode nodes refsMap child visiting hm with
          | none =>
            rw [collectChildren_cons_dropped nodes refsMap childId rest visiting
              child hl hig2 hm htn] at ht
            exact ihRest t ht
          | some t2 =>
            rw [collectChildren_cons_kept nodes refsMap childId rest visiting
              child hl hig2 hm t2 htn] at ht
            rcases List.mem_cons.1 ht with h1 | h2
            · exact h1 ▸ hTo child hm t2 htn
            · exact ihRest t h2
  exact ⟨hTo, hColl⟩

theorem toTreeNode_goodTree (nodes : List AXNode) (refsMap : List (String × Ref))
    (axNode : AXNode) (visiting : List String) (hmem : axNode.nodeId ∈ idList nodes)
    (t : TreeNode) (h : toTreeNode nodes refsMap axNode visiting hmem = some t) :
    GoodTree visiting t :=
  (tree_invariant nodes refsMap (freeIds nodes visiting) visiting le_rfl).1 axNode hmem t h

theorem buildTree_goodTree (nodes : List AXNode) (refsMap : List (String × Ref))
    (t : TreeNode) (h : buildTree nodes refsMap = some t) : GoodTree [] t := by
  unfold buildTree at h
  split at h
  · cases h
  · rename_i root heq
    exact toTreeNode_goodTree nodes refsMap root [] (buildTreeRoot_mem nodes root heq) t h

mutual
/-- All accessibility nodes occurring in a display tree, root first. -/
def TreeNode.allNodes : TreeNode → List AXNode
  | TreeNode.mk n _ cs => n :: allNodesList cs

/-- All accessibility nodes occurring in a forest of display trees. -/
def allNodesList : List TreeNode → List AXNode
  | [] => []
  | c :: cs => c.allNodes ++ allNodesList cs
end

theorem mem_allNodesList (ts : List TreeNode) (n : AXNode) (h : n ∈ allNodesList ts) :
    ∃ c ∈ ts, n ∈ c.allNodes := by
  induction ts with
  | nil => simp [allNodesList] at h
  | cons c cs ih =>
    rw [allNodesList] at h
    rcases List.mem_append.1 h with h1 | h2
    · exact ⟨c, List.mem_cons_self c cs, h1⟩
    · obtain ⟨d, hd, hnd⟩ := ih h2
      exact ⟨d, List.mem_cons_of_mem c hd, hnd⟩

theorem goodTree_not_ignored (v : List String) (t : TreeNode) (h : GoodTree v t) :
    ∀ n ∈ t.allNodes, n.ignored = false := by
  induction h with
  | mk node ref children visiting hig hfresh hch ih =>
    intro n hn
    rw [TreeNode.allNodes] at hn
    rcases List.mem_cons.1 hn with h1 | h2
    · exact h1 ▸ hig
    · obtain ⟨c, hc, hnc⟩ := mem_allNodesList children n h2
      exact ih c hc n hnc

/-- Freshness along every root-to-leaf path: each node's id is distinct
from all its ancestors' ids (and from the given forbidden list). -/
inductive PathFresh : List String → TreeNode → Prop where
  | mk (node : AXNode) (ref : Option Ref) (children : List TreeNode) (forbidden : List String)
      (hfresh : node.nodeId ∉ forbidden)
      (hch : ∀ c ∈ children, PathFresh (node.nodeId :: forbidden) c) :
      PathFresh forbidden (TreeNode.mk node ref children)

theorem goodTree_pathFresh (v : List String) (t : TreeNode) (h : GoodTree v t) :
    PathFresh v t := by
  induction h with
  | mk node ref children visiting hig hfresh hch ih =>
    exact PathFresh.mk node ref children visiting hfresh (fun c hc => ih c hc)

mutual
/-- Number of occurrences of a node id in a display tree. -/
def TreeNode.countId : TreeNode → String → Nat
  | TreeNode.mk n _ cs, i => (if n.nodeId = i then 1 else 0) + countIdList cs i

/-- Number of occurrences of a node id in a forest of display trees. -/
def countIdList : List TreeNode → String → Nat
  | [], _ => 0
  | c :: cs, i => c.countId i + countIdList cs i
end

theorem buildRefsList_not_ignored (nodes : List AXNode) (snapshot : DOMSnapshotResult)
    (r : Ref) (hr : r ∈ buildRefsList nodes snapshot) :
    ∃ n ∈ nodes, n.ignored = false ∧ r.axNodeId = n.nodeId := by
  rw [buildRefsList_eq] at hr
  obtain ⟨p, hp, rfl⟩ := List.mem_map.1 hr
  have hp2 : p.2 ∈ nodes.filter (survives snapshot.documents) := by
    have := List.mem_map_of_mem Prod.snd hp
    rwa [List.enum_map_snd] at this
  have hmem := List.mem_of_mem_filter hp2
  have hs := List.of_mem_filter hp2
  have hig : p.2.ignored = false := by
    simp only [survives, Bool.and_eq_true, Bool.not_eq_true'] at hs
    exact hs.1.1.1
  exact ⟨p.2, hmem, hig, rfl⟩

/-- C4: an ignored accessibility node never yields a Ref (every produced Ref
stems from a non-ignored node) and never occurs in the display tree from
which the titled lines are rendered, while an ignored child not on the
recursion path is made transparent: the trees collected from its own
children are spliced into its parent's children list. -/
theorem ignored_nodes_transparent (nodes : List AXNode) (snapshot : DOMSnapshotResult)
    (refsMap : List (String × Ref)) :
    (∀ r ∈ buildRefsList nodes snapshot, ∃ n ∈ nodes, n.ignored = false ∧ r.axNodeId = n.nodeId) ∧
    (∀ t, buildTree nodes refsMap = some t → ∀ n ∈ t.allNodes, n.ignored = false) ∧
    (∀ (childId : String) (rest visiting : List String) (child : AXNode),
      lookupNode nodes childId = some child → child.ignored = true → childId ∉ visiting →
      collectChildren nodes refsMap (childId :: rest) visiting =
        collectChildren nodes refsMap (getChildIds nodes childId) (childId :: visiting) ++
          collectChildren nodes refsMap rest visiting) := by
  refine ⟨?_, ?_, ?_⟩
  · intro r hr
    exact buildRefsList_not_ignored nodes snapshot r hr
  · intro t ht n hn
    exact goodTree_not_ignored [] t (buildTree_goodTree nodes refsMap t ht) n hn
  · intro childId rest visiting child hl hig hv
    exact collectChildren_cons_ignored_spliced nodes refsMap childId rest visiting child hl hig hv

/-- Root of the ignored-node scenario: a root web area with one child. -/
def igR : AXNode := { nodeId := "r", role := some "RootWebArea", childIds := some ["c"] }

/-- An ignored container between the root and the button. -/
def igC : AXNode := { nodeId := "c", role := some "generic", ignored := true, childIds := some ["g"] }

/-- An actionable button below the ignored container. -/
def igG : AXNode := { nodeId := "g", role := some "button", name := some "Go", backendDOMNodeId := some 42 }

/-- Node list of the ignored-node scenario. -/
def igNodes : List AXNode := [igR, igC, igG]

/-- Layout snapshot giving node 42 a 10 by 10 rectangle. -/
def igSnap : DOMSnapshotResult := ⟨[⟨[42], [0], [[0, 0, 10, 10]]⟩]⟩

/-- The single ref the resolution pass produces in that scenario. -/
def igRef : Ref :=
  { id := "e0", backendNodeId := 42, axNodeId := "g", role := "button",
    name := "Go", value := none, boundingBox := some ⟨0, 0, 10, 10⟩ }

/-- The display tree of that scenario: the ignored container is gone and
the button hangs directly below the root. -/
def igTree : TreeNode := TreeNode.mk igR none [TreeNode.mk igG (some igRef) []]

/-- Witness for C4 on the ignored-node scenario. -/
theorem ignored_nodes_transparent_witness :
    (∃ n ∈ igNodes, n.ignored = false ∧ igRef.axNodeId = n.nodeId) ∧
    (∀ n ∈ igTree.allNodes, n.ignored = false) ∧
    (collectChildren igNodes (refsByAxId [igRef]) ["c"] ["r"] =
      collectChildren igNodes (refsByAxId [igRef]) (getChildIds igNodes "c") ("c" :: ["r"]) ++
        collectChildren igNodes (refsByAxId [igRef]) [] ["r"]) := by
  refine ⟨?_, ?_, ?_⟩
  · refine (ignored_nodes_transparent igNodes igSnap (refsByAxId [igRef])).1 igRef ?_
    decide
  · intro n hn
    refine (ignored_nodes_transparent igNodes igSnap (refsByAxId [igRef])).2.1 igTree ?_ n hn
    have hroot : buildTreeRoot igNodes = some igR := by decide
    rw [buildTree_some igNodes (refsByAxId [igRef]) igR hroot (by decide)]
    simp [toTreeNode_step, toTreeNode_visited, collectChildren_nil, collectChildren_cons_unknown,
      collectChildren_cons_ignored_visited, collectChildren_cons_ignored_spliced,
      collectChildren_cons_kept, collectChildren_cons_dropped,
      getChildIds, childIdsFromParents, lookupNode, storeGet, refsByAxId,
      igNodes, igR, igC, igG, igRef, igTree, idList]
  · exact (ignored_nodes_transparent igNodes igSnap (refsByAxId [igRef])).2.2 "c" [] ["r"] igC
      (by decide) rfl (by decide)

/-- Root of the cycle scenario, listing both cycle members as children. -/
def cycR : AXNode := { nodeId := "r", role := some "RootWebArea", childIds := some ["a", "b"] }

/-- Cycle member a, whose child list points to b. -/
def cycA : AXNode := { nodeId := "a", role := some "link", name := some "A", childIds := some ["b"] }

/-- Cycle member b, whose child list points back to a. -/
def cycB : AXNode := { nodeId := "b", role := some "link", name := some "B", childIds := some ["a"] }

/-- A node list containing the cycle a - b - a. -/
def cycNodes : List AXNode := [cycR, cycA, cycB]

/-- The display tree built from the cyclic node list: both entries into the
cycle unroll it once, so a and b each occur twice. -/
def cycTree : TreeNode :=
  TreeNode.mk cycR none
    [TreeNode.mk cycA none [TreeNode.mk cycB none []],
     TreeNode.mk cycB none [TreeNode.mk cycA none []]]

/-- Counterexample to C5 as stated: on a crafted cyclic tree the build and
render terminate, but cycle node a occurs twice in the display tree and its
titled line appears twice in the rendered text, because the path guard only
prevents repetition along a single path, not across sibling branches. -/
theorem cycle_node_rendered_twice :
    buildTree cycNodes [] = some cycTree ∧
    cycTree.countId "a" = 2 ∧
    renderTree cycTree 0 =
      "RootWebArea\n  link \"A\"\n    link \"B\"\n  link \"B\"\n    link \"A\"" := by
  refine ⟨?_, ?_, ?_⟩
  · have hroot : buildTreeRoot cycNodes = some cycR := by decide
    rw [buildTree_some cycNodes [] cycR hroot (by decide)]
    simp [toTreeNode_step, toTreeNode_visited, collectChildren_nil, collectChildren_cons_unknown,
      collectChildren_cons_ignored_visited, collectChildren_cons_ignored_spliced,
      collectChildren_cons_kept, collectChildren_cons_dropped,
      getChildIds, childIdsFromParents, lookupNode, storeGet,
      cycNodes, cycR, cycA, cycB, cycTree, idList]
  · simp [cycTree, TreeNode.countId, countIdList, cycR, cycA, cycB]
  · have h1 : jsToLower "RootWebArea" = "rootwebarea" := by decide
    have h2 : jsToLower "link" = "link" := by decide
    simp [cycTree, renderTree, renderChildren, jsStrOr, indentStr, SKIP_ROLES,
      cycR, cycA, cycB, String.intercalate, h1, h2, String.join]
    decide

/-- C5 amended: building the display tree terminates on every node list
(cycles included; the functions below are total), and a node already on the
current recursion path is treated as absent, so no node id repeats along
any root-to-leaf path of the resulting tree; a cycle node may however
still occur once per branch through which the cycle is entered. -/
theorem display_tree_path_fresh (nodes : List AXNode) (refsMap : List (String × Ref))
    (t : TreeNode) (h : buildTree nodes refsMap = some t) : PathFresh [] t :=
  goodTree_pathFresh [] t (buildTree_goodTree nodes refsMap t h)

/-- Witness for the amended C5 on the cyclic scenario. -/
theorem display_tree_path_fresh_witness : PathFresh [] cycTree := by
  refine display_tree_path_fresh cycNodes [] cycTree ?_
  have hroot : buildTreeRoot cycNodes = some cycR := by decide
  rw [buildTree_some cycNodes [] cycR hroot (by decide)]
  simp [toTreeNode_step, toTreeNode_visited, collectChildren_nil, collectChildren_cons_unknown,
    collectChildren_cons_ignored_visited, collectChildren_cons_ignored_spliced,
    collectChildren_cons_kept, collectChildren_cons_dropped,
    getChildIds, childIdsFromParents, lookupNode, storeGet,
    cycNodes, cycR, cycA, cycB, cycTree, idList]

/-- Witness for C3 on the single ref of the ignored-node scenario. -/
theorem refs_have_visible_boxes_witness :
    ∃ b, igRef.boundingBox = some b ∧ 0 < b.width ∧ 0 < b.height :=
  refs_have_visible_boxes igNodes igSnap igRef (by decide)
